import Mathlib

/-!
Verification of the MiddleClaw action-execution gateway (`server.mjs`).

Strings are modelled as `List Char`; the filesystem as a partial map from
paths to contents; external process execution and fallible file copies as
an environment oracle.  The `/api/execute` dispatcher is embedded as a
total function that also returns the list of side effects it performed,
and the SSE notification hub (background poller plus per-connection
catch-up flush) as an executable transition system.
-/

set_option maxHeartbeats 1000000

namespace MiddleClaw

abbrev Str := List Char

def str (s : String) : Str := s.data

/-- Strict lexicographic order on character lists (the order in which a
directory listing sorts file names). -/
def lexLt : Str → Str → Bool
  | [], [] => false
  | [], _ :: _ => true
  | _ :: _, [] => false
  | a :: as, b :: bs => if a = b then lexLt as bs else decide (a < b)

/-- One character of `new Date().toISOString().replace(/[:.]/g, '-')`:
colons and dots become dashes. -/
def normTsChar (c : Char) : Char := if c = ':' ∨ c = '.' then '-' else c

/-- `timestamp = new Date().toISOString().replace(/[:.]/g, '-')`. -/
def normTs (ts : Str) : Str := ts.map normTsChar

/-- `filepath.replace(/\//g, '__')`: every path separator is escaped as
two underscores. -/
def escSlash : Str → Str
  | [] => []
  | c :: cs => if c = '/' then '_' :: '_' :: escSlash cs else c :: escSlash cs

/-- `backupName = filepath.replace(/\//g, '__') + "." + timestamp + ".bak"`,
where `timestamp` is the normalized ISO-8601 string. -/
def backupName (filepath ts : Str) : Str :=
  escSlash filepath ++ '.' :: (normTs ts ++ str ".bak")

/-- `join(a, b)` for an absolute directory `a` and a relative name `b`. -/
def joinPath (a b : Str) : Str := a ++ '/' :: b

/-- `backupPath = join(BACKUP_DIR, backupName)`. -/
def backupPathOf (backupDir filepath ts : Str) : Str :=
  joinPath backupDir (backupName filepath ts)

/-- A position of the fixed-width ISO-8601 format: either a decimal digit
or a fixed literal character. -/
inductive CSpec where
  | digit : CSpec
  | lit : Char → CSpec
deriving DecidableEq

/-- The fixed-width format `YYYY-MM-DDTHH:MM:SS.mmmZ` produced by
`Date.prototype.toISOString` (24 characters). -/
def isoTemplate : List CSpec :=
  [.digit, .digit, .digit, .digit, .lit '-', .digit, .digit, .lit '-',
   .digit, .digit, .lit 'T', .digit, .digit, .lit ':', .digit, .digit,
   .lit ':', .digit, .digit, .lit '.', .digit, .digit, .digit, .lit 'Z']

/-- Decimal digit test by explicit enumeration. -/
def isDig (c : Char) : Bool :=
  c = '0' ∨ c = '1' ∨ c = '2' ∨ c = '3' ∨ c = '4' ∨
  c = '5' ∨ c = '6' ∨ c = '7' ∨ c = '8' ∨ c = '9'

/-- Does a character list match a fixed-width template? -/
def matchesT : List CSpec → Str → Bool
  | [], [] => true
  | .digit :: t, c :: cs => isDig c && matchesT t cs
  | .lit l :: t, c :: cs => (c = l) && matchesT t cs
  | _, _ => false

/-- Validity of an ISO-8601 timestamp string as emitted by `toISOString`. -/
def isIsoTs (ts : Str) : Bool := matchesT isoTemplate ts

lemma normTsChar_digit {c : Char} (h : isDig c = true) : normTsChar c = c := by
  simp only [isDig, decide_eq_true_eq] at h
  rcases h with h | h | h | h | h | h | h | h | h | h <;> subst h <;> decide

lemma matchesT_length {t : List CSpec} {s : Str} (h : matchesT t s = true) :
    s.length = t.length := by
  induction t generalizing s with
  | nil => cases s with
    | nil => rfl
    | cons c cs => simp [matchesT] at h
  | cons sp t ih =>
    cases s with
    | nil => cases sp <;> simp [matchesT] at h
    | cons c cs =>
      cases sp with
      | digit =>
        simp only [matchesT, Bool.and_eq_true] at h
        simp [ih h.2]
      | lit l =>
        simp only [matchesT, Bool.and_eq_true] at h
        simp [ih h.2]

lemma normTs_inj {t : List CSpec} {s₁ s₂ : Str}
    (h₁ : matchesT t s₁ = true) (h₂ : matchesT t s₂ = true)
    (h : normTs s₁ = normTs s₂) : s₁ = s₂ := by
  induction t generalizing s₁ s₂ with
  | nil =>
    cases s₁ with
    | nil => cases s₂ with
      | nil => rfl
      | cons b bs => simp [matchesT] at h₂
    | cons a as => simp [matchesT] at h₁
  | cons sp t ih =>
    cases s₁ with
    | nil => cases sp <;> simp [matchesT] at h₁
    | cons a as =>
      cases s₂ with
      | nil => cases sp <;> simp [matchesT] at h₂
      | cons b bs =>
        simp only [normTs, List.map_cons, List.cons.injEq] at h
        cases sp with
        | digit =>
          simp only [matchesT, Bool.and_eq_true] at h₁ h₂
          have ha := normTsChar_digit h₁.1
          have hb := normTsChar_digit h₂.1
          have hab : a = b := by rw [← ha, ← hb]; exact h.1
          simp only [normTs] at ih
          rw [hab, ih h₁.2 h₂.2 h.2]
        | lit l =>
          simp only [matchesT, Bool.and_eq_true, decide_eq_true_eq] at h₁ h₂
          rw [h₁.1, h₂.1]
          simp only [normTs] at ih
          rw [ih h₁.2 h₂.2 h.2]

lemma normTs_lexLt {t : List CSpec} {s₁ s₂ : Str}
    (h₁ : matchesT t s₁ = true) (h₂ : matchesT t s₂ = true) :
    lexLt (normTs s₁) (normTs s₂) = lexLt s₁ s₂ := by
  induction t generalizing s₁ s₂ with
  | nil =>
    cases s₁ with
    | nil => cases s₂ with
      | nil => rfl
      | cons b bs => simp [matchesT] at h₂
    | cons a as => simp [matchesT] at h₁
  | cons sp t ih =>
    cases s₁ with
    | nil => cases sp <;> simp [matchesT] at h₁
    | cons a as =>
      cases s₂ with
      | nil => cases sp <;> simp [matchesT] at h₂
      | cons b bs =>
        cases sp with
        | digit =>
          simp only [matchesT, Bool.and_eq_true] at h₁ h₂
          have ha := normTsChar_digit h₁.1
          have hb := normTsChar_digit h₂.1
          simp only [normTs, List.map_cons, lexLt, ha, hb]
          by_cases hab : a = b
          · subst hab
            simp only [if_pos rfl]
            exact ih h₁.2 h₂.2
          · rw [if_neg hab, if_neg hab]
        | lit l =>
          simp only [matchesT, Bool.and_eq_true, decide_eq_true_eq] at h₁ h₂
          simp only [normTs, List.map_cons, lexLt, h₁.1, h₂.1, if_pos rfl]
          exact ih h₁.2 h₂.2

lemma lexLt_append_left (x : Str) (a b : Str) :
    lexLt (x ++ a) (x ++ b) = lexLt a b := by
  induction x with
  | nil => rfl
  | cons c cs ih => simp [lexLt, ih]

lemma lexLt_append_of_lexLt {a b : Str} (hlen : a.length = b.length)
    (h : lexLt a b = true) (u v : Str) : lexLt (a ++ u) (b ++ v) = true := by
  induction a generalizing b with
  | nil =>
    cases b with
    | nil => simp [lexLt] at h
    | cons y ys => simp at hlen
  | cons x xs ih =>
    cases b with
    | nil => simp at hlen
    | cons y ys =>
      simp only [List.length_cons, Nat.succ.injEq] at hlen
      simp only [lexLt, List.cons_append] at h ⊢
      by_cases hxy : x = y
      · simp only [if_pos hxy] at h ⊢
        exact ih hlen h
      · simp only [if_neg hxy] at h ⊢
        exact h

/-! ## The action-execution dispatcher (`/api/execute`) -/

/-- Policy snapshot: the blocked-command patterns (`BLOCKED_COMMANDS`,
each pattern abstracted as a Boolean predicate on the command string) and
the readable/writable path-prefix lists (`SAFE_READ_PATHS`,
`SAFE_WRITE_PATHS`, externally owned configuration). -/
structure Policy where
  blockedCommands : List (Str → Bool)
  readPaths : List Str
  writePaths : List Str

/-- `BLOCKED_COMMANDS.some(pattern => pattern.test(cmd))`. -/
def isCommandBlocked (po : Policy) (cmd : Str) : Bool :=
  po.blockedCommands.any fun pat => pat cmd

/-- `SAFE_READ_PATHS.some(p => filepath.startsWith(p))`. -/
def isPathReadable (po : Policy) (filepath : Str) : Bool :=
  po.readPaths.any fun p => p.isPrefixOf filepath

/-- `SAFE_WRITE_PATHS.some(p => filepath.startsWith(p))`. -/
def isPathWritable (po : Policy) (filepath : Str) : Bool :=
  po.writePaths.any fun p => p.isPrefixOf filepath

/-- JavaScript `hay.includes(needle)`: substring containment. -/
def strIncludes : Str → Str → Bool
  | [], needle => needle.isEmpty
  | c :: t, needle => needle.isPrefixOf (c :: t) || strIncludes t needle

/-- The long-running-command heuristic of the `RUN_CMD` branch. -/
def isAsyncCommand (target : Str) : Bool :=
  strIncludes target (str "openclaw agent") ||
  strIncludes target (str "openclaw --message") ||
  strIncludes target (str "openclaw --to") ||
  decide (target.length > 200)

/-- `target.split('.').pop()`: the characters after the last dot, or the
whole string when there is no dot. -/
def extAfterDot (s : Str) : Str :=
  s.foldl (fun acc c => if c = '.' then [] else acc ++ [c]) []

/-- `target.split('.').pop().toLowerCase()`. -/
def extLower (s : Str) : Str := (extAfterDot s).map Char.toLower

/-- `dirname(p)` of the `path` module, for paths without trailing
separators. -/
def dirname (p : Str) : Str :=
  match p.reverse.dropWhile (fun c => decide (c ≠ '/')) with
  | [] => str "."
  | [_] => str "/"
  | _ :: rest => rest.reverse

/-- JavaScript `a || b || c` on strings: the first non-empty one. -/
def firstNonEmpty (a b c : Str) : Str :=
  if a.isEmpty then if b.isEmpty then c else b else a

/-- The relative-path normalization performed before the `switch`:
`if (type !== 'RUN_CMD' && target && !target.startsWith('/'))
 target = join(process.cwd(), target)`. -/
def normalizeTarget (cwd ty target : Str) : Str :=
  if ty ≠ str "RUN_CMD" ∧ ¬target.isEmpty ∧ ¬(str "/").isPrefixOf target then
    joinPath cwd target
  else target

/-- Interpreter selection of the `RUN_SCRIPT` branch, from the target's
extension. -/
def scriptShell (target : Str) : Str :=
  let ext := extLower target
  if ext = str "bat" ∨ ext = str "cmd" ∨ ext = str "ps1" then
    if ext = str "ps1" then
      str "powershell -ExecutionPolicy Bypass -File \"" ++ target ++ str "\""
    else
      str "cmd /c \"" ++ target ++ str "\""
  else
    str "bash \"" ++ target ++ str "\""

/-- `fullCmd = content ? shell + ' ' + content : shell` (an empty or
absent `content` is falsy). -/
def composeScript (target : Str) (content : Option Str) : Str :=
  match content with
  | some c => if c.isEmpty then scriptShell target else scriptShell target ++ ' ' :: c
  | none => scriptShell target

/-- The error object thrown by a failing `execSync` (non-zero exit,
timeout, or output-buffer overflow): captured stderr, captured stdout and
the error message, any of which may be empty. -/
structure ExecErr where
  stderr : Str
  stdout : Str
  message : Str
deriving DecidableEq

/-- Result of one synchronous child-process execution. -/
inductive ExecResult where
  | ok (stdout : Str)
  | fail (e : ExecErr)
deriving DecidableEq

/-- Environment oracle: behaviour of the external world (child
processes, fallible copies and writes). -/
structure Env where
  execSyncRes : Str → ExecResult
  copyRes : Str → Str → Except Str Unit
  writeRes : Str → Str → Except Str Unit

/-- One observable side effect of the dispatcher: a process execution or
a filesystem access. -/
inductive Effect where
  | execSyncE (cmd : Str) (timeoutMs maxBuffer : Nat) (cwd : Option Str)
  | spawnE (cmd : Str) (maxBuffer : Nat)
  | fsExistsE (p : Str)
  | fsReadE (p : Str)
  | fsWriteE (p : Str) (content : Str)
  | fsCopyE (src dst : Str)
  | fsMkdirE (p : Str)
deriving DecidableEq

/-- The HTTP response of `/api/execute`: `{success:true, result}`,
`{success:false, result}` or `{success:true, status:"running", actionId,
message}`. -/
inductive Response where
  | ok (result : Str)
  | fail (result : Str)
  | running (actionId : Str) (message : Str)
deriving DecidableEq

/-- One entry of the in-memory `pendingActions` registry. -/
structure PendingAction where
  type : Str
  target : Str
  startedAt : Str
deriving DecidableEq

/-- Server state touched by the dispatcher: the filesystem (path →
contents), the set of existing directories, and `pendingActions`. -/
structure St where
  fs : Str → Option Str
  dirs : Str → Bool
  pending : List (Str × PendingAction)

/-- Request body `{type, target, content}` of `/api/execute`. -/
structure Request where
  type : Str
  target : Str
  content : Option Str

/-- `backupFile(filepath)`: `null` when the file does not exist,
otherwise copy it to `join(BACKUP_DIR, backupName)` (creating the backup
directory if needed) and return the backup path; a failing
`copyFileSync` propagates as a thrown error (`Except.error`). -/
def backupFile (backupDir now : Str) (env : Env) (s : St) (filepath : Str) :
    Except Str (Option Str) × St × List Effect :=
  match s.fs filepath with
  | none => (.ok none, s, [.fsExistsE filepath])
  | some content =>
    let s₁ : St := { s with dirs := fun q => decide (q = backupDir) || s.dirs q }
    let mkEff : List Effect := if s.dirs backupDir then [] else [.fsMkdirE backupDir]
    let bp := backupPathOf backupDir filepath now
    match env.copyRes filepath bp with
    | .error m =>
      (.error m, s₁, [.fsExistsE filepath, .fsExistsE backupDir] ++ mkEff ++ [.fsCopyE filepath bp])
    | .ok _ =>
      (.ok (some bp),
       { s₁ with fs := Function.update s₁.fs bp (some content) },
       [.fsExistsE filepath, .fsExistsE backupDir] ++ mkEff ++ [.fsCopyE filepath bp])

/-- The `/api/execute` handler: path normalization, the four-way
`switch`, and the surrounding `try/catch` that turns any thrown error
into `{success:false, result}`.  `cwd` is `process.cwd()`, `now` the
current ISO timestamp, `freshId` the next `generateActionId()` value. -/
def execute (po : Policy) (env : Env) (cwd backupDir now freshId : Str)
    (s : St) (req : Request) : Response × St × List Effect :=
  let target := normalizeTarget cwd req.type req.target
  if req.type = str "READ_FILE" then
    if ¬ isPathReadable po target then
      (.fail (str "Access denied: \"" ++ target ++ str "\" is outside allowed read paths."),
       s, [])
    else match s.fs target with
      | none => (.fail (str "File not found: " ++ target), s, [.fsExistsE target])
      | some data => (.ok data, s, [.fsExistsE target, .fsReadE target])
  else if req.type = str "RUN_CMD" then
    if isCommandBlocked po target then
      (.fail (str "Blocked: \"" ++ target ++
        str "\" matches a dangerous command pattern. MiddleClaw refuses to run it."), s, [])
    else if ¬ isAsyncCommand target then
      match env.execSyncRes target with
      | .ok out =>
        (.ok (if out.isEmpty then str "(no output)" else out), s,
         [.execSyncE target 30000 1048576 none])
      | .fail e =>
        (.fail (firstNonEmpty e.stderr e.stdout e.message), s,
         [.execSyncE target 30000 1048576 none])
    else
      (.running freshId (str "Command started. Result will be delivered when complete."),
       { s with pending := (freshId, ⟨str "RUN_CMD", target, now⟩) :: s.pending },
       [.spawnE target 2097152])
  else if req.type = str "RUN_SCRIPT" then
    if ¬ isPathReadable po target then
      (.fail (str "Access denied: \"" ++ target ++ str "\" is outside allowed read paths."),
       s, [])
    else match s.fs target with
      | none => (.fail (str "Script not found: " ++ target), s, [.fsExistsE target])
      | some _ =>
        let fullCmd := composeScript target req.content
        if isCommandBlocked po fullCmd then
          (.fail (str "Blocked: script execution matches a dangerous command pattern."),
           s, [.fsExistsE target])
        else match env.execSyncRes fullCmd with
          | .ok out =>
            (.ok (if out.isEmpty then str "(no output)" else out), s,
             [.fsExistsE target, .execSyncE fullCmd 120000 2097152 (some (dirname target))])
          | .fail e =>
            (.fail (firstNonEmpty e.stderr e.stdout e.message), s,
             [.fsExistsE target, .execSyncE fullCmd 120000 2097152 (some (dirname target))])
  else if req.type = str "WRITE_FILE" then
    if ¬ isPathWritable po target then
      (.fail (str "Access denied: \"" ++ target ++ str "\" is outside allowed write paths."),
       s, [])
    else
      let dir := dirname target
      let s₁ : St := { s with dirs := fun q => decide (q = dir) || s.dirs q }
      let eff₁ : List Effect := if s.dirs dir then [.fsExistsE dir]
        else [.fsExistsE dir, .fsMkdirE dir]
      match backupFile backupDir now env s₁ target with
      | (.error m, s₂, eff₂) => (.fail (str "Error: " ++ m), s₂, eff₁ ++ eff₂)
      | (.ok backup, s₂, eff₂) =>
        match req.content with
        | none =>
          (.fail (str "Error: The \"data\" argument must be of type string."),
           s₂, eff₁ ++ eff₂)
        | some content =>
          match env.writeRes target content with
          | .error m =>
            (.fail (str "Error: " ++ m), s₂, eff₁ ++ eff₂ ++ [.fsWriteE target content])
          | .ok _ =>
            let s₃ : St := { s₂ with fs := Function.update s₂.fs target (some content) }
            let msg := match backup with
              | some bp => str "File written. Backup saved to: " ++ bp
              | none => str "File created at: " ++ target
            (.ok msg, s₃, eff₁ ++ eff₂ ++ [.fsWriteE target content])
  else
    (.fail (str "Unknown action type: " ++ req.type), s, [])

/-! ## The notification hub

`pollCompletedActions` (the 3-second background poll), the `/api/events`
connect handler with its catch-up flush, and client disconnection, as a
transition system.  Marker files are identified by action id; connections
by a numeric handle (each `res` object is a fresh handle).  `delivered c i`
counts the `action-complete` events sent to connection `c` for action
id `i`. -/

structure Hub where
  markers : List Str
  pendingIds : Str → Bool
  conns : List Nat
  everConnected : Nat → Bool
  completedOnce : Str → Bool
  delivered : Nat → Str → Nat

inductive HEvent where
  | submit (id : Str)
  | complete (id : Str)
  | poll
  | connect (c : Nat)
  | disconnect (c : Nat)
deriving DecidableEq

/-- An async submission registers a fresh id in `pendingActions`
(`generateActionId` never reuses an id that is pending or already
completed). -/
def submitStep (id : Str) (h : Hub) : Hub :=
  if h.pendingIds id || h.completedOnce id then h
  else { h with pendingIds := fun i => decide (i = id) || h.pendingIds i }

/-- The spawned child's completion callback writes the marker file for
its id; exactly one outcome is ever produced per action id. -/
def completeStep (id : Str) (h : Hub) : Hub :=
  if h.completedOnce id then h
  else { h with
    markers := id :: h.markers,
    completedOnce := fun i => decide (i = id) || h.completedOnce i }

/-- One tick of `pollCompletedActions`: every marker whose id is in
`pendingActions` is read, its files are unlinked, the id is removed from
`pendingActions`, and the completion is written to every currently
connected client (snapshot).  Markers with no pending entry are skipped
and left on disk. -/
def pollStep (h : Hub) : Hub :=
  { h with
    markers := h.markers.filter (fun i => !(h.pendingIds i)),
    pendingIds := fun i => h.pendingIds i && !(decide (i ∈ h.markers)),
    delivered := fun c i =>
      if c ∈ h.conns ∧ i ∈ h.markers.filter (fun j => h.pendingIds j) then
        h.delivered c i + 1
      else h.delivered c i }

/-- The `/api/events` handler for a fresh connection handle: register it
in `clientConnections`, then flush every marker file present (no
`pendingActions` check) to this one connection, unlinking each file
after sending. -/
def connectStep (c : Nat) (h : Hub) : Hub :=
  if h.everConnected c then h
  else
    { markers := []
      pendingIds := h.pendingIds
      conns := c :: h.conns
      everConnected := fun d => decide (d = c) || h.everConnected d
      completedOnce := h.completedOnce
      delivered := fun d i =>
        if d = c ∧ i ∈ h.markers then h.delivered d i + 1 else h.delivered d i }

/-- `req.on('close')` / heartbeat failure: remove the handle. -/
def disconnectStep (c : Nat) (h : Hub) : Hub :=
  { h with conns := h.conns.filter (fun d => decide (d ≠ c)) }

def hubStep (h : Hub) : HEvent → Hub
  | .submit id => submitStep id h
  | .complete id => completeStep id h
  | .poll => pollStep h
  | .connect c => connectStep c h
  | .disconnect c => disconnectStep c h

/-- Server start: the marker directory may already hold orphaned markers
from a previous process lifetime; `pendingActions` and
`clientConnections` start empty. -/
def hubInit (orphans : List Str) : Hub :=
  { markers := orphans.dedup
    pendingIds := fun _ => false
    conns := []
    everConnected := fun _ => false
    completedOnce := fun i => decide (i ∈ orphans)
    delivered := fun _ _ => 0 }

def hubRun (orphans : List Str) (evs : List HEvent) : Hub :=
  evs.foldl hubStep (hubInit orphans)

/-- Inductive invariant of the hub. -/
structure HubInv (h : Hub) : Prop where
  nodup : h.markers.Nodup
  markerCompleted : ∀ i ∈ h.markers, h.completedOnce i = true
  deliveredLe : ∀ c i, h.delivered c i ≤ 1
  deliveredNoMarker : ∀ c i, 1 ≤ h.delivered c i → i ∉ h.markers ∧ h.completedOnce i = true
  freshConn : ∀ c, h.everConnected c = false → ∀ i, h.delivered c i = 0
  connsEver : ∀ c ∈ h.conns, h.everConnected c = true

lemma hubInv_init (orphans : List Str) : HubInv (hubInit orphans) where
  nodup := orphans.nodup_dedup
  markerCompleted := fun i hi => by
    simp only [hubInit, decide_eq_true_eq]
    exact List.mem_dedup.mp hi
  deliveredLe := fun _ _ => Nat.zero_le 1
  deliveredNoMarker := fun c i hge => absurd hge (by simp [hubInit])
  freshConn := fun _ _ _ => rfl
  connsEver := fun c hc => absurd hc (List.not_mem_nil c)

lemma hubInv_submitStep {h : Hub} (inv : HubInv h) (id : Str) :
    HubInv (submitStep id h) := by
  unfold submitStep
  split
  · exact inv
  · exact ⟨inv.nodup, inv.markerCompleted, inv.deliveredLe, inv.deliveredNoMarker,
      inv.freshConn, inv.connsEver⟩

lemma hubInv_completeStep {h : Hub} (inv : HubInv h) (id : Str) :
    HubInv (completeStep id h) := by
  unfold completeStep
  split
  · exact inv
  · rename_i hguard
    have hid : id ∉ h.markers := fun hmem => hguard (inv.markerCompleted id hmem)
    refine ⟨List.nodup_cons.mpr ⟨hid, inv.nodup⟩, ?_, inv.deliveredLe, ?_,
      inv.freshConn, inv.connsEver⟩
    · intro i hi
      rcases List.mem_cons.mp hi with h1 | h1
      · subst h1; simp
      · simp [inv.markerCompleted i h1]
    · intro c i hge
      obtain ⟨hnm, hco⟩ := inv.deliveredNoMarker c i hge
      refine ⟨?_, by simp [hco]⟩
      intro hi
      rcases List.mem_cons.mp hi with h1 | h1
      · exact hguard (h1 ▸ hco)
      · exact hnm h1

lemma hubInv_pollStep {h : Hub} (inv : HubInv h) : HubInv (pollStep h) := by
  unfold pollStep
  refine ⟨inv.nodup.filter _, ?_, ?_, ?_, ?_, inv.connsEver⟩
  · intro i hi
    exact inv.markerCompleted i (List.mem_of_mem_filter hi)
  · intro c i
    simp only
    split
    · rename_i hcond
      have hmem : i ∈ h.markers := List.mem_of_mem_filter hcond.2
      have h0 : h.delivered c i = 0 := by
        by_contra hne
        exact (inv.deliveredNoMarker c i (Nat.one_le_iff_ne_zero.mpr hne)).1 hmem
      omega
    · exact inv.deliveredLe c i
  · intro c i
    simp only
    split
    · rename_i hcond
      have hpend : h.pendingIds i = true := (List.mem_filter.mp hcond.2).2
      intro _
      refine ⟨?_, inv.markerCompleted i (List.mem_of_mem_filter hcond.2)⟩
      intro hmem'
      have := (List.mem_filter.mp hmem').2
      simp [hpend] at this
    · intro hge
      obtain ⟨hnm, hco⟩ := inv.deliveredNoMarker c i hge
      exact ⟨fun hmem' => hnm (List.mem_of_mem_filter hmem'), hco⟩
  · intro c hec i
    simp only
    have hc : c ∉ h.conns := fun hmem => by
      rw [inv.connsEver c hmem] at hec; cases hec
    rw [if_neg (fun hcond => hc hcond.1)]
    exact inv.freshConn c hec i

lemma hubInv_connectStep {h : Hub} (inv : HubInv h) (c : Nat) :
    HubInv (connectStep c h) := by
  unfold connectStep
  split
  · exact inv
  · rename_i hguard
    have hfresh : ∀ i, h.delivered c i = 0 :=
      inv.freshConn c (Bool.not_eq_true _ ▸ by simpa using hguard)
    refine ⟨List.nodup_nil, by simp, ?_, ?_, ?_, ?_⟩
    · intro d i
      simp only
      split
      · rename_i hcond
        rw [hcond.1, hfresh i]
      · exact inv.deliveredLe d i
    · intro d i
      simp only
      split
      · rename_i hcond
        intro _
        exact ⟨List.not_mem_nil i, inv.markerCompleted i hcond.2⟩
      · intro hge
        exact ⟨List.not_mem_nil i, (inv.deliveredNoMarker d i hge).2⟩
    · intro d hd i
      simp only [Bool.or_eq_false_iff, decide_eq_false_iff_not] at hd
      show (if d = c ∧ i ∈ h.markers then h.delivered d i + 1 else h.delivered d i) = 0
      rw [if_neg (fun hcond => hd.1 hcond.1)]
      exact inv.freshConn d hd.2 i
    · intro d hd
      rcases List.mem_cons.mp hd with h1 | h1
      · simp [h1]
      · simp [inv.connsEver d h1]

lemma hubInv_disconnectStep {h : Hub} (inv : HubInv h) (c : Nat) :
    HubInv (disconnectStep c h) := by
  unfold disconnectStep
  exact ⟨inv.nodup, inv.markerCompleted, inv.deliveredLe, inv.deliveredNoMarker,
    inv.freshConn, fun d hd => inv.connsEver d (List.mem_of_mem_filter hd)⟩

lemma hubInv_step {h : Hub} (inv : HubInv h) (ev : HEvent) : HubInv (hubStep h ev) := by
  cases ev with
  | submit id => exact hubInv_submitStep inv id
  | complete id => exact hubInv_completeStep inv id
  | poll => exact hubInv_pollStep inv
  | connect c => exact hubInv_connectStep inv c
  | disconnect c => exact hubInv_disconnectStep inv c

lemma hubInv_foldl (evs : List HEvent) : ∀ h : Hub, HubInv h → HubInv (evs.foldl hubStep h) := by
  induction evs with
  | nil => exact fun h inv => inv
  | cons ev rest ih => exact fun h inv => ih (hubStep h ev) (hubInv_step inv ev)

lemma hubInv_run (orphans : List Str) (evs : List HEvent) : HubInv (hubRun orphans evs) :=
  hubInv_foldl evs (hubInit orphans) (hubInv_init orphans)

/-- An orphaned marker: present on disk, unknown to `pendingActions`,
produced by an already-finished action, and never yet delivered. -/
def orphanAt (i : Str) (h : Hub) : Prop :=
  i ∈ h.markers ∧ h.pendingIds i = false ∧ h.completedOnce i = true ∧
    ∀ c, h.delivered c i = 0

lemma orphan_stable {i : Str} {h : Hub} (ho : orphanAt i h) (ev : HEvent)
    (hnc : ∀ c, ev ≠ .connect c) : orphanAt i (hubStep h ev) := by
  obtain ⟨hm, hp, hc, hd⟩ := ho
  cases ev with
  | submit id =>
    show orphanAt i (submitStep id h)
    unfold submitStep
    split
    · exact ⟨hm, hp, hc, hd⟩
    · rename_i hguard
      refine ⟨hm, ?_, hc, hd⟩
      show (decide (i = id) || h.pendingIds i) = false
      rcases eq_or_ne i id with h1 | h1
      · subst h1
        simp [hp, hc] at hguard
      · simp [h1, hp]
  | complete id =>
    show orphanAt i (completeStep id h)
    unfold completeStep
    split
    · exact ⟨hm, hp, hc, hd⟩
    · rename_i hguard
      exact ⟨List.mem_cons_of_mem id hm, hp, by simp [hc], hd⟩
  | poll =>
    show orphanAt i (pollStep h)
    unfold pollStep
    refine ⟨List.mem_filter.mpr ⟨hm, by simp [hp]⟩, by simp [hp], hc, ?_⟩
    intro c
    show (if c ∈ h.conns ∧ i ∈ h.markers.filter (fun j => h.pendingIds j) then
        h.delivered c i + 1 else h.delivered c i) = 0
    rw [if_neg, hd c]
    rintro ⟨-, hmem⟩
    have := (List.mem_filter.mp hmem).2
    simp [hp] at this
  | connect c => exact absurd rfl (hnc c)
  | disconnect c =>
    exact ⟨hm, hp, hc, hd⟩

lemma orphan_foldl {i : Str} (evs : List HEvent) :
    ∀ h : Hub, orphanAt i h → (∀ c, HEvent.connect c ∉ evs) →
      orphanAt i (evs.foldl hubStep h) := by
  induction evs with
  | nil => exact fun h ho _ => ho
  | cons ev rest ih =>
    intro h ho hnc
    refine ih (hubStep h ev) (orphan_stable ho ev ?_) ?_
    · intro c hev
      exact hnc c (hev ▸ List.mem_cons_self ev rest)
    · intro c hmem
      exact hnc c (List.mem_cons_of_mem ev hmem)

/-! ## Auxiliary lemmas and concrete fixtures -/

lemma isPrefixOf_eq_true {l p : Str} : l.isPrefixOf p = true ↔ l <+: p := by
  induction l generalizing p with
  | nil => simp [List.isPrefixOf]
  | cons a as ih =>
    cases p with
    | nil => simp [List.isPrefixOf]
    | cons b bs =>
      simp only [List.isPrefixOf, Bool.and_eq_true, beq_iff_eq, ih,
        List.cons_prefix_cons]

lemma escSlash_length (p : Str) : p.length ≤ (escSlash p).length := by
  induction p with
  | nil => exact Nat.le_refl 0
  | cons c cs ih =>
    unfold escSlash
    split <;> simp only [List.length_cons] <;> omega

lemma backupPathOf_ne (backupDir p now : Str) : backupPathOf backupDir p now ≠ p := by
  intro h
  have hlen := congrArg List.length h
  simp only [backupPathOf, joinPath, backupName, str, List.length_append,
    List.length_cons] at hlen
  have := escSlash_length p
  omega

/-- An environment where every external operation succeeds. -/
def envOk : Env := ⟨fun _ => .ok [], fun _ _ => .ok (), fun _ _ => .ok ()⟩

/-- An environment whose file copies fail. -/
def envCopyFail : Env := ⟨fun _ => .ok [], fun _ _ => .error (str "EACCES"), fun _ _ => .ok ()⟩

/-- An empty server state. -/
def stEmpty : St := ⟨fun _ => none, fun _ => false, []⟩

/-- A server state holding one file `/tmp/x.txt` with contents `old`. -/
def stOne : St :=
  ⟨fun p => if p = str "/tmp/x.txt" then some (str "old") else none, fun _ => false, []⟩

/-- A sample policy: one substring pattern, read/write roots `/tmp/`. -/
def poSample : Policy :=
  ⟨[fun cmd => strIncludes cmd (str "rm -rf ")], [str "/tmp/"], [str "/tmp/"]⟩

/-! ## Claim theorems -/

/-- C1: a `RunCommand` whose target matches at least one pattern of the
command blocklist is answered with `success:false` (the `Blocked`
message); no synchronous execution and no asynchronous spawn is reached,
nothing is registered in the pending registry, and no side effect at all
is performed. -/
theorem blocked_command_never_runs
    (po : Policy) (env : Env) (cwd backupDir now freshId : Str) (s : St) (req : Request)
    (hty : req.type = str "RUN_CMD")
    (hblocked : ∃ pat ∈ po.blockedCommands, pat req.target = true) :
    (execute po env cwd backupDir now freshId s req).1 =
      .fail (str "Blocked: \"" ++ req.target ++
        str "\" matches a dangerous command pattern. MiddleClaw refuses to run it.") ∧
    (execute po env cwd backupDir now freshId s req).2.1.pending = s.pending ∧
    (execute po env cwd backupDir now freshId s req).2.2 = [] := by
  obtain ⟨ty, target, content⟩ := req
  simp only at hty hblocked
  subst hty
  have hb : isCommandBlocked po target = true := by
    obtain ⟨pat, hmem, hpat⟩ := hblocked
    exact List.any_eq_true.mpr ⟨pat, hmem, hpat⟩
  have hnorm : normalizeTarget cwd (str "RUN_CMD") target = target := by
    unfold normalizeTarget
    rw [if_neg]
    rintro ⟨hcond, -⟩
    exact hcond rfl
  simp only [execute, hnorm, if_neg (show ¬(str "RUN_CMD" = str "READ_FILE") from by decide),
    if_pos rfl, hb, eq_self_iff_true, if_true]
  exact ⟨trivial, trivial, trivial⟩

/-- C1 witness: `rm -rf /` matches the sample blocklist and is refused. -/
theorem blocked_command_never_runs_witness :
    (execute poSample envOk (str "/w") (str "/b") (str "T") (str "act_1") stEmpty
      ⟨str "RUN_CMD", str "rm -rf /", none⟩).2.2 = [] :=
  (blocked_command_never_runs poSample envOk (str "/w") (str "/b") (str "T") (str "act_1")
    stEmpty ⟨str "RUN_CMD", str "rm -rf /", none⟩ rfl
    ⟨fun cmd => strIncludes cmd (str "rm -rf "), by simp [poSample], by decide⟩).2.2

/-- C5: a `ReadFile` whose (normalized) target starts with no configured
readable prefix is answered with the access-denied failure, the server
state is untouched, and no filesystem access at all is performed. -/
theorem readFile_denied_no_fs_access
    (po : Policy) (env : Env) (cwd backupDir now freshId : Str) (s : St) (req : Request)
    (hty : req.type = str "READ_FILE")
    (hdenied : isPathReadable po (normalizeTarget cwd req.type req.target) = false) :
    (execute po env cwd backupDir now freshId s req).1 =
      .fail (str "Access denied: \"" ++ normalizeTarget cwd req.type req.target ++
        str "\" is outside allowed read paths.") ∧
    (execute po env cwd backupDir now freshId s req).2.1 = s ∧
    (execute po env cwd backupDir now freshId s req).2.2 = [] := by
  obtain ⟨ty, target, content⟩ := req
  simp only at hty hdenied ⊢
  subst hty
  simp only [execute, if_pos rfl, hdenied, Bool.false_eq_true, not_false_eq_true, if_pos]
  exact ⟨trivial, trivial, trivial⟩

/-- C5 witness: reading `/etc/passwd` under a `/tmp/`-only read policy is
denied without touching the filesystem. -/
theorem readFile_denied_no_fs_access_witness :
    (execute poSample envOk (str "/w") (str "/b") (str "T") (str "act_1") stEmpty
      ⟨str "READ_FILE", str "/etc/passwd", none⟩).2.2 = [] :=
  (readFile_denied_no_fs_access poSample envOk (str "/w") (str "/b") (str "T") (str "act_1")
    stEmpty ⟨str "READ_FILE", str "/etc/passwd", none⟩ rfl (by decide)).2.2

/-- C8: `isPathReadable` and `isPathWritable` are literal
string-prefix tests over their respective configured lists; the two
lists are independent (one path may satisfy both); and no
canonicalization is performed — a `/tmp/`-rooted path containing a `..`
traversal is still accepted verbatim. -/
theorem pathPolicy_literal_prefix :
    (∀ po p, isPathReadable po p = true ↔ ∃ q ∈ po.readPaths, q <+: p) ∧
    (∀ po p, isPathWritable po p = true ↔ ∃ q ∈ po.writePaths, q <+: p) ∧
    (isPathReadable poSample (str "/tmp/f") = true ∧
      isPathWritable poSample (str "/tmp/f") = true) ∧
    (strIncludes (str "/tmp/../etc/passwd") (str "..") = true ∧
      isPathReadable poSample (str "/tmp/../etc/passwd") = true) := by
  refine ⟨?_, ?_, by decide, by decide⟩
  · intro po p
    simp only [isPathReadable, List.any_eq_true, isPrefixOf_eq_true]
  · intro po p
    simp only [isPathWritable, List.any_eq_true, isPrefixOf_eq_true]

/-- C8 witness: the readable test at a concrete policy and path. -/
theorem pathPolicy_literal_prefix_witness :
    isPathReadable poSample (str "/tmp/zz") = true ↔
      ∃ q ∈ poSample.readPaths, q <+: str "/tmp/zz" :=
  pathPolicy_literal_prefix.1 poSample (str "/tmp/zz")

/-- C4 counterexample: the backup naming scheme does collide across
distinct invocations — the separator escaping is ambiguous, so the
distinct source paths `/a/b` and `/a__b`, backed up in the same
millisecond, yield the identical backup name. -/
theorem backupName_collides :
    str "/a/b" ≠ str "/a__b" ∧
    isIsoTs (str "2025-01-01T00:00:00.000Z") = true ∧
    backupName (str "/a/b") (str "2025-01-01T00:00:00.000Z") =
      backupName (str "/a__b") (str "2025-01-01T00:00:00.000Z") :=
  ⟨by decide, by decide, by decide⟩

/-- C4 (amended): `backupFile` returns `none` exactly when the path does
not exist; for a fixed source path, backups at distinct valid ISO-8601
timestamps get distinct names, and backup names of the same path sort
chronologically (name order coincides with timestamp order).  Uniqueness
across distinct paths, or within one millisecond, is not guaranteed. -/
theorem backupFile_naming
    (backupDir now : Str) (env : Env) (s : St) (p ts₁ ts₂ : Str)
    (h₁ : isIsoTs ts₁ = true) (h₂ : isIsoTs ts₂ = true) :
    ((backupFile backupDir now env s p).1 = .ok none ↔ s.fs p = none) ∧
    (ts₁ ≠ ts₂ → backupName p ts₁ ≠ backupName p ts₂) ∧
    (lexLt ts₁ ts₂ = true → lexLt (backupName p ts₁) (backupName p ts₂) = true) := by
  have hlen₁ : (normTs ts₁).length = 24 := by
    simpa [normTs] using matchesT_length (t := isoTemplate) h₁
  have hlen₂ : (normTs ts₂).length = 24 := by
    simpa [normTs] using matchesT_length (t := isoTemplate) h₂
  refine ⟨?_, ?_, ?_⟩
  · unfold backupFile
    cases hfs : s.fs p with
    | none => simp
    | some content =>
      simp only
      cases env.copyRes p (backupPathOf backupDir p now) with
      | error m => simp
      | ok u => simp
  · intro hne h
    apply hne
    unfold backupName at h
    have h' := List.append_cancel_left h
    have h'' := (List.cons.injEq _ _ _ _).mp h'
    have h3 := List.append_inj_left h''.2 (hlen₁.trans hlen₂.symm)
    exact normTs_inj h₁ h₂ h3
  · intro hlt
    unfold backupName
    rw [List.append_cons (escSlash p) '.' (normTs ts₁ ++ str ".bak"),
        List.append_cons (escSlash p) '.' (normTs ts₂ ++ str ".bak"),
        lexLt_append_left]
    exact lexLt_append_of_lexLt (hlen₁.trans hlen₂.symm)
      (by rw [normTs_lexLt h₁ h₂]; exact hlt) _ _

/-- C4 witness: two backups of `/a` one millisecond apart get distinct,
chronologically ordered names. -/
theorem backupFile_naming_witness :
    backupName (str "/a") (str "2025-01-01T00:00:00.000Z") ≠
      backupName (str "/a") (str "2025-01-01T00:00:00.001Z") :=
  (backupFile_naming (str "/b") (str "T") envOk stEmpty (str "/a")
    (str "2025-01-01T00:00:00.000Z") (str "2025-01-01T00:00:00.001Z")
    (by decide) (by decide)).2.1 (by decide)

/-- C2: for a `WriteFile` whose target pre-exists, a backup holding the
target's original bytes exists after the write (the backup is taken
before the overwrite); and if the backup copy fails, the write is
aborted: the response is `success:false`, the target's bytes are
unchanged, and no write to the target is attempted. -/
theorem writeFile_backup_before_overwrite
    (po : Policy) (env : Env) (cwd backupDir now freshId : Str) (s : St) (req : Request)
    (t content old : Str)
    (hty : req.type = str "WRITE_FILE")
    (ht : normalizeTarget cwd req.type req.target = t)
    (hco : req.content = some content)
    (hw : isPathWritable po t = true)
    (hex : s.fs t = some old) :
    (env.copyRes t (backupPathOf backupDir t now) = .ok () →
      env.writeRes t content = .ok () →
      (execute po env cwd backupDir now freshId s req).1 =
        .ok (str "File written. Backup saved to: " ++ backupPathOf backupDir t now) ∧
      (execute po env cwd backupDir now freshId s req).2.1.fs
        (backupPathOf backupDir t now) = some old ∧
      (execute po env cwd backupDir now freshId s req).2.1.fs t = some content) ∧
    (∀ m, env.copyRes t (backupPathOf backupDir t now) = .error m →
      (execute po env cwd backupDir now freshId s req).1 = .fail (str "Error: " ++ m) ∧
      (execute po env cwd backupDir now freshId s req).2.1.fs t = some old ∧
      ∀ c', Effect.fsWriteE t c' ∉ (execute po env cwd backupDir now freshId s req).2.2) := by
  obtain ⟨ty, rtarget, rcontent⟩ := req
  simp only at hty ht hco
  subst hty
  subst hco
  simp only [execute, ht,
    if_neg (show ¬(str "WRITE_FILE" = str "READ_FILE") from by decide),
    if_neg (show ¬(str "WRITE_FILE" = str "RUN_CMD") from by decide),
    if_neg (show ¬(str "WRITE_FILE" = str "RUN_SCRIPT") from by decide),
    if_pos rfl, hw, not_true, eq_self_iff_true, if_true, if_false, Bool.true_eq_false,
    not_false_eq_true]
  constructor
  · intro hcopy hwrite
    simp only [backupFile, hex, hcopy, hwrite]
    refine ⟨by trivial, ?_, ?_⟩
    · show Function.update (Function.update s.fs (backupPathOf backupDir t now)
        (some old)) t (some content) (backupPathOf backupDir t now) = some old
      rw [Function.update_noteq (backupPathOf_ne backupDir t now),
        Function.update_same]
    · show Function.update (Function.update s.fs (backupPathOf backupDir t now)
        (some old)) t (some content) t = some content
      rw [Function.update_same]
  · intro m hcopy
    simp only [backupFile, hex, hcopy]
    refine ⟨by trivial, by trivial, ?_⟩
    intro c'
    split <;> split <;> simp

/-- C2 witness: writing to a pre-existing `/tmp/x.txt` under a failing
copy leaves the original contents in place. -/
theorem writeFile_backup_before_overwrite_witness :
    (execute poSample envCopyFail (str "/w") (str "/b") (str "T") (str "act_1") stOne
      ⟨str "WRITE_FILE", str "/tmp/x.txt", some (str "new")⟩).2.1.fs
      (str "/tmp/x.txt") = some (str "old") :=
  ((writeFile_backup_before_overwrite poSample envCopyFail (str "/w") (str "/b") (str "T")
    (str "act_1") stOne ⟨str "WRITE_FILE", str "/tmp/x.txt", some (str "new")⟩
    (str "/tmp/x.txt") (str "new") (str "old") rfl (by decide) rfl (by decide)
    (by decide)).2 (str "EACCES") rfl).2.1

lemma isAsyncCommand_iff (t : Str) :
    isAsyncCommand t = true ↔
      (strIncludes t (str "openclaw agent") = true ∨
       strIncludes t (str "openclaw --message") = true ∨
       strIncludes t (str "openclaw --to") = true ∨
       t.length > 200) := by
  simp [isAsyncCommand, Bool.or_eq_true, or_assoc]

/-- C6: a non-blocked `RunCommand` takes the asynchronous path (immediate
`{success:true, status:"running", actionId}` plus a pending-registry
entry and a spawn) exactly when the command contains one of the fixed
long-running marker substrings or is longer than 200 characters;
otherwise it runs synchronously via `execSync` with a 30000 ms timeout
and a 1 MiB (`1048576`) output cap, and a failing execution (non-zero
exit, timeout or overflow) is reported as `success:false` carrying
`stderr || stdout || message` — the first non-empty partial output. -/
theorem runCmd_classification
    (po : Policy) (env : Env) (cwd backupDir now freshId : Str) (s : St) (req : Request)
    (hty : req.type = str "RUN_CMD")
    (hnb : isCommandBlocked po req.target = false) :
    ((∃ m, (execute po env cwd backupDir now freshId s req).1 = .running freshId m) ↔
      (strIncludes req.target (str "openclaw agent") = true ∨
       strIncludes req.target (str "openclaw --message") = true ∨
       strIncludes req.target (str "openclaw --to") = true ∨
       req.target.length > 200)) ∧
    (isAsyncCommand req.target = true →
      (execute po env cwd backupDir now freshId s req).1 =
        .running freshId (str "Command started. Result will be delivered when complete.") ∧
      (execute po env cwd backupDir now freshId s req).2.1.pending =
        (freshId, ⟨str "RUN_CMD", req.target, now⟩) :: s.pending ∧
      (execute po env cwd backupDir now freshId s req).2.2 =
        [.spawnE req.target 2097152]) ∧
    (isAsyncCommand req.target = false →
      (execute po env cwd backupDir now freshId s req).2.2 =
        [.execSyncE req.target 30000 1048576 none] ∧
      (execute po env cwd backupDir now freshId s req).2.1.pending = s.pending ∧
      (∀ o, env.execSyncRes req.target = .ok o →
        (execute po env cwd backupDir now freshId s req).1 =
          .ok (if o.isEmpty then str "(no output)" else o)) ∧
      (∀ e, env.execSyncRes req.target = .fail e →
        (execute po env cwd backupDir now freshId s req).1 =
          .fail (firstNonEmpty e.stderr e.stdout e.message))) := by
  obtain ⟨ty, target, content⟩ := req
  simp only at hty hnb ⊢
  subst hty
  have hnorm : normalizeTarget cwd (str "RUN_CMD") target = target := by
    unfold normalizeTarget
    rw [if_neg]
    rintro ⟨hcond, -⟩
    exact hcond rfl
  simp only [execute, hnorm, if_neg (show ¬(str "RUN_CMD" = str "READ_FILE") from by decide),
    if_pos rfl, hnb, Bool.false_eq_true, if_false, not_false_eq_true, if_true]
  by_cases hasync : isAsyncCommand target = true
  · simp only [hasync, not_true, if_false]
    refine ⟨?_, ?_, ?_⟩
    · rw [← isAsyncCommand_iff]
      simp [hasync]
    · intro _
      exact ⟨by trivial, by trivial, by trivial⟩
    · intro hcontra
      simp at hcontra
  · have hasync' : isAsyncCommand target = false := by
      cases h : isAsyncCommand target
      · rfl
      · exact absurd h hasync
    simp only [hasync', Bool.false_eq_true, not_false_eq_true, if_true]
    refine ⟨?_, ?_, ?_⟩
    · rw [← isAsyncCommand_iff]
      simp only [hasync', Bool.false_eq_true, iff_false]
      rintro ⟨m, hm⟩
      cases hres : env.execSyncRes target with
      | ok o => rw [hres] at hm; cases hm
      | fail e => rw [hres] at hm; cases hm
    · intro hcontra
      exact hcontra.elim
    · intro _
      cases hres : env.execSyncRes target with
      | ok o =>
        simp only [hres]
        refine ⟨by trivial, by trivial, ?_, ?_⟩
        · intro o' ho'
          injection ho' with h
          subst h
          rfl
        · intro e he
          simp at he
      | fail e =>
        simp only [hres]
        refine ⟨by trivial, by trivial, ?_, ?_⟩
        · intro o' ho'
          simp at ho'
        · intro e' he'
          injection he' with h
          subst h
          rfl

/-- C6 witness: `echo hello` is synchronous; a long `openclaw agent`
command is asynchronous and registers a pending entry. -/
theorem runCmd_classification_witness :
    (execute poSample envOk (str "/w") (str "/b") (str "T") (str "act_1") stEmpty
      ⟨str "RUN_CMD", str "openclaw agent run", none⟩).2.1.pending =
      (str "act_1", ⟨str "RUN_CMD", str "openclaw agent run", str "T"⟩) :: stEmpty.pending :=
  ((runCmd_classification poSample envOk (str "/w") (str "/b") (str "T") (str "act_1")
    stEmpty ⟨str "RUN_CMD", str "openclaw agent run", none⟩ rfl (by decide)).2.1
    (by decide)).2.1

/-- C7: for a `RunScript` with a readable, existing target, the
interpreter is chosen from the extension (`.sh`/`.bash` → `bash`,
`.bat`/`.cmd` → `cmd /c`, `.ps1` → `powershell -ExecutionPolicy Bypass`),
optional arguments from `content` are appended (`composeScript`), the
fully composed command is re-checked against the command blocklist and
refused with `success:false` on a match; otherwise it runs synchronously
via `execSync` with a 120000 ms timeout and the script's directory as
working directory. -/
theorem runScript_dispatch
    (po : Policy) (env : Env) (cwd backupDir now freshId : Str) (s : St) (req : Request)
    (t data : Str)
    (hty : req.type = str "RUN_SCRIPT")
    (ht : normalizeTarget cwd req.type req.target = t)
    (hr : isPathReadable po t = true)
    (hex : s.fs t = some data) :
    (extLower t = str "sh" → scriptShell t = str "bash \"" ++ t ++ str "\"") ∧
    (extLower t = str "bash" → scriptShell t = str "bash \"" ++ t ++ str "\"") ∧
    (extLower t = str "bat" → scriptShell t = str "cmd /c \"" ++ t ++ str "\"") ∧
    (extLower t = str "cmd" → scriptShell t = str "cmd /c \"" ++ t ++ str "\"") ∧
    (extLower t = str "ps1" →
      scriptShell t = str "powershell -ExecutionPolicy Bypass -File \"" ++ t ++ str "\"") ∧
    (isCommandBlocked po (composeScript t req.content) = true →
      (execute po env cwd backupDir now freshId s req).1 =
        .fail (str "Blocked: script execution matches a dangerous command pattern.") ∧
      (execute po env cwd backupDir now freshId s req).2.2 = [.fsExistsE t]) ∧
    (isCommandBlocked po (composeScript t req.content) = false →
      (execute po env cwd backupDir now freshId s req).2.2 =
        [.fsExistsE t,
         .execSyncE (composeScript t req.content) 120000 2097152 (some (dirname t))] ∧
      (∀ o, env.execSyncRes (composeScript t req.content) = .ok o →
        (execute po env cwd backupDir now freshId s req).1 =
          .ok (if o.isEmpty then str "(no output)" else o)) ∧
      (∀ e, env.execSyncRes (composeScript t req.content) = .fail e →
        (execute po env cwd backupDir now freshId s req).1 =
          .fail (firstNonEmpty e.stderr e.stdout e.message))) := by
  obtain ⟨ty, rtarget, rcontent⟩ := req
  simp only at hty ht ⊢
  subst hty
  have hsh : ∀ e : Str, e = str "sh" ∨ e = str "bash" →
      ¬(e = str "bat" ∨ e = str "cmd" ∨ e = str "ps1") := by
    rintro e (rfl | rfl) <;> decide
  refine ⟨?_, ?_, ?_, ?_, ?_, ?_, ?_⟩
  · intro hext
    unfold scriptShell
    rw [hext, if_neg (by decide)]
  · intro hext
    unfold scriptShell
    rw [hext, if_neg (by decide)]
  · intro hext
    unfold scriptShell
    rw [hext, if_pos (by decide), if_neg (by decide)]
  · intro hext
    unfold scriptShell
    rw [hext, if_pos (by decide), if_neg (by decide)]
  · intro hext
    unfold scriptShell
    rw [hext, if_pos (by decide), if_pos (by decide)]
  · intro hblocked
    simp only [execute, ht,
      if_neg (show ¬(str "RUN_SCRIPT" = str "READ_FILE") from by decide),
      if_neg (show ¬(str "RUN_SCRIPT" = str "RUN_CMD") from by decide),
      if_pos rfl, hr, not_true, eq_self_iff_true, if_true, if_false, hex, hblocked]
    exact ⟨by trivial, by trivial⟩
  · intro hok
    simp only [execute, ht,
      if_neg (show ¬(str "RUN_SCRIPT" = str "READ_FILE") from by decide),
      if_neg (show ¬(str "RUN_SCRIPT" = str "RUN_CMD") from by decide),
      if_pos rfl, hr, not_true, eq_self_iff_true, if_true, if_false, hex, hok,
      Bool.false_eq_true]
    cases hres : env.execSyncRes (composeScript t rcontent) with
    | ok o =>
      simp only [hres]
      refine ⟨by trivial, ?_, ?_⟩
      · intro o' ho'
        injection ho' with h
        subst h
        rfl
      · intro e he
        simp at he
    | fail e =>
      simp only [hres]
      refine ⟨by trivial, ?_, ?_⟩
      · intro o' ho'
        simp at ho'
      · intro e' he'
        injection he' with h
        subst h
        rfl

/-- C7 witness: a blocked composed command (`bash "/tmp/s.sh" rm -rf /x`)
is refused without executing. -/
theorem runScript_dispatch_witness :
    (execute poSample envOk (str "/w") (str "/b") (str "T") (str "act_1")
      ⟨fun p => if p = str "/tmp/s.sh" then some (str "echo hi") else none,
       fun _ => false, []⟩
      ⟨str "RUN_SCRIPT", str "/tmp/s.sh", some (str "rm -rf /x")⟩).1 =
      .fail (str "Blocked: script execution matches a dangerous command pattern.") :=
  ((runScript_dispatch poSample envOk (str "/w") (str "/b") (str "T") (str "act_1")
    ⟨fun p => if p = str "/tmp/s.sh" then some (str "echo hi") else none,
     fun _ => false, []⟩
    ⟨str "RUN_SCRIPT", str "/tmp/s.sh", some (str "rm -rf /x")⟩
    (str "/tmp/s.sh") (str "echo hi") rfl (by decide) (by decide)
    (by decide)).2.2.2.2.2.1 (by decide)).1

/-- C9: the dispatcher is a total function — every submission gets a
structured response (`ok`, `fail` or `running`), and every failure that
can arise in any branch (unknown action type, access denial, missing
file or script, blocked command or script, failing synchronous
execution, failing backup copy, failing write) is answered with a
`success:false` response carrying a message, never an unhandled fault. -/
theorem execute_structured_failures
    (po : Policy) (env : Env) (cwd backupDir now freshId : Str) (s : St) (req : Request) :
    ((∃ m, (execute po env cwd backupDir now freshId s req).1 = .ok m) ∨
     (∃ m, (execute po env cwd backupDir now freshId s req).1 = .fail m) ∨
     (∃ a m, (execute po env cwd backupDir now freshId s req).1 = .running a m)) ∧
    (req.type ≠ str "READ_FILE" → req.type ≠ str "RUN_CMD" →
     req.type ≠ str "RUN_SCRIPT" → req.type ≠ str "WRITE_FILE" →
      (execute po env cwd backupDir now freshId s req).1 =
        .fail (str "Unknown action type: " ++ req.type)) ∧
    (req.type = str "READ_FILE" →
     isPathReadable po (normalizeTarget cwd req.type req.target) = false →
      ∃ m, (execute po env cwd backupDir now freshId s req).1 = .fail m) ∧
    (req.type = str "READ_FILE" →
     isPathReadable po (normalizeTarget cwd req.type req.target) = true →
     s.fs (normalizeTarget cwd req.type req.target) = none →
      ∃ m, (execute po env cwd backupDir now freshId s req).1 = .fail m) ∧
    (req.type = str "RUN_CMD" → isCommandBlocked po req.target = true →
      ∃ m, (execute po env cwd backupDir now freshId s req).1 = .fail m) ∧
    (req.type = str "RUN_CMD" → isCommandBlocked po req.target = false →
     isAsyncCommand req.target = false →
     ∀ e, env.execSyncRes req.target = .fail e →
      ∃ m, (execute po env cwd backupDir now freshId s req).1 = .fail m) ∧
    (req.type = str "RUN_SCRIPT" →
     isPathReadable po (normalizeTarget cwd req.type req.target) = false →
      ∃ m, (execute po env cwd backupDir now freshId s req).1 = .fail m) ∧
    (req.type = str "RUN_SCRIPT" →
     isPathReadable po (normalizeTarget cwd req.type req.target) = true →
     s.fs (normalizeTarget cwd req.type req.target) = none →
      ∃ m, (execute po env cwd backupDir now freshId s req).1 = .fail m) ∧
    (req.type = str "RUN_SCRIPT" →
     isPathReadable po (normalizeTarget cwd req.type req.target) = true →
     ∀ data, s.fs (normalizeTarget cwd req.type req.target) = some data →
     isCommandBlocked po
       (composeScript (normalizeTarget cwd req.type req.target) req.content) = true →
      ∃ m, (execute po env cwd backupDir now freshId s req).1 = .fail m) ∧
    (req.type = str "WRITE_FILE" →
     isPathWritable po (normalizeTarget cwd req.type req.target) = false →
      ∃ m, (execute po env cwd backupDir now freshId s req).1 = .fail m) ∧
    (req.type = str "WRITE_FILE" →
     isPathWritable po (normalizeTarget cwd req.type req.target) = true →
     ∀ data, s.fs (normalizeTarget cwd req.type req.target) = some data →
     ∀ m', env.copyRes (normalizeTarget cwd req.type req.target)
       (backupPathOf backupDir (normalizeTarget cwd req.type req.target) now) = .error m' →
      (execute po env cwd backupDir now freshId s req).1 =
        .fail (str "Error: " ++ m')) ∧
    (req.type = str "WRITE_FILE" →
     isPathWritable po (normalizeTarget cwd req.type req.target) = true →
     s.fs (normalizeTarget cwd req.type req.target) = none →
     ∀ content, req.content = some content →
     ∀ m', env.writeRes (normalizeTarget cwd req.type req.target) content = .error m' →
      (execute po env cwd backupDir now freshId s req).1 =
        .fail (str "Error: " ++ m')) := by
  obtain ⟨ty, rtarget, rcontent⟩ := req
  refine ⟨?_, ?_, ?_, ?_, ?_, ?_, ?_, ?_, ?_, ?_, ?_, ?_⟩
  · cases h : (execute po env cwd backupDir now freshId s ⟨ty, rtarget, rcontent⟩).1 with
    | ok m => exact .inl ⟨m, rfl⟩
    | fail m => exact .inr (.inl ⟨m, rfl⟩)
    | running a m => exact .inr (.inr ⟨a, m, rfl⟩)
  · intro h1 h2 h3 h4
    simp only [execute, if_neg h1, if_neg h2, if_neg h3, if_neg h4]
  · intro hty hden
    subst hty
    simp only at hden
    simp only [execute, if_pos rfl, hden, Bool.false_eq_true, not_false_eq_true, if_pos]
    exact ⟨_, rfl⟩
  · intro hty hread hmiss
    subst hty
    simp only at hread hmiss
    simp only [execute, if_pos rfl, hread, not_true, eq_self_iff_true, if_true, if_false,
      hmiss]
    exact ⟨_, rfl⟩
  · intro hty hb
    subst hty
    simp only at hb
    have hnorm : normalizeTarget cwd (str "RUN_CMD") rtarget = rtarget := by
      unfold normalizeTarget
      rw [if_neg]
      rintro ⟨hcond, -⟩
      exact hcond rfl
    simp only [execute, hnorm,
      if_neg (show ¬(str "RUN_CMD" = str "READ_FILE") from by decide), if_pos rfl, hb,
      if_true]
    exact ⟨_, rfl⟩
  · intro hty hnb hna e he
    subst hty
    simp only at hnb hna he
    have hnorm : normalizeTarget cwd (str "RUN_CMD") rtarget = rtarget := by
      unfold normalizeTarget
      rw [if_neg]
      rintro ⟨hcond, -⟩
      exact hcond rfl
    simp only [execute, hnorm,
      if_neg (show ¬(str "RUN_CMD" = str "READ_FILE") from by decide), if_pos rfl, hnb,
      Bool.false_eq_true, if_false, hna, not_false_eq_true, if_true, he]
    exact ⟨_, rfl⟩
  · intro hty hden
    subst hty
    simp only at hden
    simp only [execute,
      if_neg (show ¬(str "RUN_SCRIPT" = str "READ_FILE") from by decide),
      if_neg (show ¬(str "RUN_SCRIPT" = str "RUN_CMD") from by decide),
      if_pos rfl, hden, Bool.false_eq_true, not_false_eq_true, if_pos]
    exact ⟨_, rfl⟩
  · intro hty hread hmiss
    subst hty
    simp only at hread hmiss
    simp only [execute,
      if_neg (show ¬(str "RUN_SCRIPT" = str "READ_FILE") from by decide),
      if_neg (show ¬(str "RUN_SCRIPT" = str "RUN_CMD") from by decide),
      if_pos rfl, hread, not_true, eq_self_iff_true, if_true, if_false, hmiss]
    exact ⟨_, rfl⟩
  · intro hty hread data hdata hblocked
    subst hty
    simp only at hread hdata hblocked
    simp only [execute,
      if_neg (show ¬(str "RUN_SCRIPT" = str "READ_FILE") from by decide),
      if_neg (show ¬(str "RUN_SCRIPT" = str "RUN_CMD") from by decide),
      if_pos rfl, hread, not_true, eq_self_iff_true, if_true, if_false, hdata, hblocked]
    exact ⟨_, rfl⟩
  · intro hty hden
    subst hty
    simp only at hden
    simp only [execute,
      if_neg (show ¬(str "WRITE_FILE" = str "READ_FILE") from by decide),
      if_neg (show ¬(str "WRITE_FILE" = str "RUN_CMD") from by decide),
      if_neg (show ¬(str "WRITE_FILE" = str "RUN_SCRIPT") from by decide),
      if_pos rfl, hden, Bool.false_eq_true, not_false_eq_true, if_pos]
    exact ⟨_, rfl⟩
  · intro hty hwri data hdata m' hcopy
    subst hty
    simp only at hwri hdata hcopy
    simp only [execute,
      if_neg (show ¬(str "WRITE_FILE" = str "READ_FILE") from by decide),
      if_neg (show ¬(str "WRITE_FILE" = str "RUN_CMD") from by decide),
      if_neg (show ¬(str "WRITE_FILE" = str "RUN_SCRIPT") from by decide),
      if_pos rfl, hwri, not_true, eq_self_iff_true, if_true, if_false,
      backupFile, hdata, hcopy]
  · intro hty hwri hmiss content hco m' hwrite
    subst hty
    subst hco
    simp only at hwri hmiss hwrite
    simp only [execute,
      if_neg (show ¬(str "WRITE_FILE" = str "READ_FILE") from by decide),
      if_neg (show ¬(str "WRITE_FILE" = str "RUN_CMD") from by decide),
      if_neg (show ¬(str "WRITE_FILE" = str "RUN_SCRIPT") from by decide),
      if_pos rfl, hwri, not_true, eq_self_iff_true, if_true, if_false,
      backupFile, hmiss, hwrite]

/-- C9 witness: an unknown action type gets a structured failure. -/
theorem execute_structured_failures_witness :
    (execute poSample envOk (str "/w") (str "/b") (str "T") (str "act_1") stEmpty
      ⟨str "DELETE_ALL", str "/x", none⟩).1 =
      .fail (str "Unknown action type: " ++ str "DELETE_ALL") :=
  (execute_structured_failures poSample envOk (str "/w") (str "/b") (str "T") (str "act_1")
    stEmpty ⟨str "DELETE_ALL", str "/x", none⟩).2.1
    (by decide) (by decide) (by decide) (by decide)

/-- C3: at-most-once delivery.  Over every trace of submissions,
completions, poll ticks, connects and disconnects (from any initial set
of orphaned markers), each single connection receives at most one
`action-complete` event for each action id. -/
theorem actionComplete_at_most_once (orphans : List Str) (evs : List HEvent)
    (c : Nat) (i : Str) : (hubRun orphans evs).delivered c i ≤ 1 :=
  (hubInv_run orphans evs).deliveredLe c i

/-- C3 witness: a concrete trace. -/
theorem actionComplete_at_most_once_witness :
    (hubRun [str "a"] [HEvent.connect 0, HEvent.poll]).delivered 0 (str "a") ≤ 1 :=
  actionComplete_at_most_once [str "a"] [HEvent.connect 0, HEvent.poll] 0 (str "a")

/-- C10: the poller skips (and leaves on disk) markers whose id is not
in the pending registry, delivering nothing for them; the connect-time
catch-up flush sends every marker present — pending or orphaned — to the
new client exactly once each and empties the store; and along any trace
without a connect event, an orphaned marker stays on disk and is never
delivered to anyone (in particular never by the poller). -/
theorem orphan_marker_handling :
    (∀ h : Hub, ∀ i, i ∈ h.markers → h.pendingIds i = false →
      i ∈ (pollStep h).markers ∧ ∀ c, (pollStep h).delivered c i = h.delivered c i) ∧
    (∀ h : Hub, ∀ c, h.everConnected c = false →
      (connectStep c h).markers = [] ∧
      ∀ i, i ∈ h.markers → (connectStep c h).delivered c i = h.delivered c i + 1) ∧
    (∀ orphans : List Str, ∀ evs : List HEvent, ∀ i, i ∈ orphans →
      (∀ c, HEvent.connect c ∉ evs) →
      i ∈ (hubRun orphans evs).markers ∧
      ∀ c, (hubRun orphans evs).delivered c i = 0) := by
  refine ⟨?_, ?_, ?_⟩
  · intro h i hm hp
    constructor
    · exact List.mem_filter.mpr ⟨hm, by simp [hp]⟩
    · intro c
      show (if c ∈ h.conns ∧ i ∈ h.markers.filter (fun j => h.pendingIds j) then
          h.delivered c i + 1 else h.delivered c i) = h.delivered c i
      rw [if_neg]
      rintro ⟨-, hmem⟩
      have := (List.mem_filter.mp hmem).2
      simp [hp] at this
  · intro h c hguard
    unfold connectStep
    rw [if_neg (by simp [hguard])]
    refine ⟨rfl, ?_⟩
    intro i hi
    show (if c = c ∧ i ∈ h.markers then h.delivered c i + 1 else h.delivered c i)
      = h.delivered c i + 1
    rw [if_pos ⟨rfl, hi⟩]
  · intro orphans evs i hio hnc
    have h0 : orphanAt i (hubInit orphans) := by
      refine ⟨List.mem_dedup.mpr hio, rfl, by simp [hubInit, hio], fun c => rfl⟩
    have hfin : orphanAt i (hubRun orphans evs) := orphan_foldl evs (hubInit orphans) h0 hnc
    exact ⟨hfin.1, hfin.2.2.2⟩

/-- C10 witness: a poll tick leaves the orphan `a` on disk and delivers
nothing; a connecting client then receives it. -/
theorem orphan_marker_handling_witness :
    ((str "a") ∈ (hubRun [str "a"] [HEvent.poll]).markers ∧
      (hubRun [str "a"] [HEvent.poll]).delivered 0 (str "a") = 0) ∧
    (connectStep 0 (hubInit [str "a"])).markers = [] ∧
    (connectStep 0 (hubInit [str "a"])).delivered 0 (str "a") =
      (hubInit [str "a"]).delivered 0 (str "a") + 1 := by
  constructor
  · have h := orphan_marker_handling.2.2 [str "a"] [HEvent.poll] (str "a")
      (by decide) (by intro c hmem; simp at hmem)
    exact ⟨h.1, h.2 0⟩
  · have h := orphan_marker_handling.2.1 (hubInit [str "a"]) 0 rfl
    exact ⟨h.1, h.2 (str "a") (by decide)⟩

end MiddleClaw
